import Mathlib

/-
  Verification of the pycall code-generation library (src/src/lib.rs).

  The Rust code is shallowly embedded: the builder `PythonProgram` becomes a
  record of the temp file's path, the bytes written so far, and the `Indents`
  counter; each builder method becomes a pure state transformer; the fallible
  OS primitives (temp-file creation, file writes, fs::copy, process launch)
  become explicit outcome arguments, with `.unwrap()` on a failed primitive
  modelled as the dedicated `panicked` outcome.
-/

namespace Pycall

/-- Model of `impl Display for Indents` (src/src/lib.rs:88): the loop
`for _ in 0..self.0` writes one tab per iteration; an `isize` range `0..n`
is empty when `n ≤ 0`, hence `Int.toNat`. -/
def indentsStr (n : Int) : String := String.mk (List.replicate n.toNat '\t')

/-- Model of `PythonProgram` (src/src/lib.rs:142): the named temp file is
modelled by its path and the byte content written to it so far (writes to the
underlying `File` are unbuffered); `indents` is the `Indents` counter. -/
structure PythonProgram where
  path : String
  content : String
  indents : Int
  deriving DecidableEq

/-- Model of `PythonProgram::indent` (src/src/lib.rs:179). Note the source:
`if n >= 0 { self.indents.0 += n } else { self.indents.0 -= n }` — the
negative branch subtracts the (negative) `n`, thereby adding `|n|`. -/
def indent (p : PythonProgram) (n : Int) : PythonProgram :=
  if 0 ≤ n then { p with indents := p.indents + n }
  else { p with indents := p.indents - n }

/-- Model of `PythonProgram::end_block` (src/src/lib.rs:190): `self.indent(-1)`. -/
def end_block (p : PythonProgram) : PythonProgram := indent p (-1)

/-- Model of `PythonProgram::write_line` (src/src/lib.rs:229):
`writeln!(file, "{}{}", indents, line)`. -/
def write_line (p : PythonProgram) (line : String) : PythonProgram :=
  { p with content := p.content ++ (indentsStr p.indents ++ line ++ "\n") }

/-- Model of `PythonProgram::define_variable` (src/src/lib.rs:195):
`writeln!(file, "{}{} = {}", indents, name, PythonLiteral(value))`; the
`AsPythonLitteral` impl of the value's type is the `render` argument. -/
def define_variable {α : Type} (render : α → String) (p : PythonProgram)
    (name : String) (v : α) : PythonProgram :=
  { p with content :=
      p.content ++ (indentsStr p.indents ++ name ++ " = " ++ render v ++ "\n") }

/-- Model of `PythonProgram::import` (src/src/lib.rs:212). -/
def writeImport (p : PythonProgram) (dependency : String) : PythonProgram :=
  { p with content :=
      p.content ++ (indentsStr p.indents ++ "import " ++ dependency ++ "\n") }

/-- Model of `PythonProgram::import_as` (src/src/lib.rs:218). -/
def writeImportAs (p : PythonProgram) (dependency rename : String) : PythonProgram :=
  { p with content :=
      p.content ++
        (indentsStr p.indents ++ "import " ++ dependency ++ " as " ++ rename ++ "\n") }

/-- Model of `PythonProgram::if` (src/src/lib.rs:235): write the header at the
current level, then `indent(1)`. -/
def ifStmt (p : PythonProgram) (condition : String) : PythonProgram :=
  indent
    { p with content :=
        p.content ++ (indentsStr p.indents ++ "if " ++ condition ++ ":\n") } 1

/-- Model of `PythonProgram::elif` (src/src/lib.rs:240): `indent(-1)`, write
the header at the resulting level, then `indent(1)`. -/
def elifStmt (p : PythonProgram) (condition : String) : PythonProgram :=
  let p1 := indent p (-1)
  indent
    { p1 with content :=
        p1.content ++ (indentsStr p1.indents ++ "elif " ++ condition ++ ":\n") } 1

/-- Model of `PythonProgram::else` (src/src/lib.rs:246):
`self.indent(-1).write_line("else:").indent(1)`. -/
def elseStmt (p : PythonProgram) : PythonProgram :=
  indent (write_line (indent p (-1)) "else:") 1

/-- Model of `PythonProgram::for` (src/src/lib.rs:251). -/
def forStmt (p : PythonProgram) (range : String) : PythonProgram :=
  indent
    { p with content :=
        p.content ++ (indentsStr p.indents ++ "for " ++ range ++ ":\n") } 1

/-- Model of `PythonProgram::while` (src/src/lib.rs:257). -/
def whileStmt (p : PythonProgram) (condition : String) : PythonProgram :=
  indent
    { p with content :=
        p.content ++ (indentsStr p.indents ++ "while " ++ condition ++ ":\n") } 1

/-- The content-writing builder operations of the claim about append-only
behaviour, as one closed syntax of operations. -/
inductive Op where
  | wline (line : String)
  | defvar (name rendered : String)
  | imp (dependency : String)
  | impAs (dependency rename : String)
  | opIf (condition : String)
  | opElif (condition : String)
  | opElse
  | opFor (range : String)
  | opWhile (condition : String)

/-- Dispatch of `Op` to the corresponding builder method. -/
def step (p : PythonProgram) : Op → PythonProgram
  | .wline l => write_line p l
  | .defvar n r => define_variable id p n r
  | .imp d => writeImport p d
  | .impAs d r => writeImportAs p d r
  | .opIf c => ifStmt p c
  | .opElif c => elifStmt p c
  | .opElse => elseStmt p
  | .opFor r => forStmt p r
  | .opWhile c => whileStmt p c

theorem indent_content (p : PythonProgram) (n : Int) : (indent p n).content = p.content := by
  unfold indent; split <;> rfl

theorem indent_path (p : PythonProgram) (n : Int) : (indent p n).path = p.path := by
  unfold indent; split <;> rfl

/-- C1: the claim states that `indent(n)` changes the `IndentLevel` counter by
exactly `n` and that `end_block()` changes it by exactly `-1`, as the source's
own doc comments also say. Evaluating the code refutes this: the negative
branch of `indent` executes `self.indents.0 -= n`, so `indent(-1)` from level 0
yields level 1 (not -1) and `end_block()` from level 1 yields level 2 (not 0). -/
theorem c1_indent_sign_bug :
    (indent ⟨"t", "", 0⟩ (-1)).indents = 1 ∧ (end_block ⟨"t", "", 1⟩).indents = 2 := by
  decide

/-- C2: the claim states that `elif`/`else` first decrement the counter, emit
their header one level shallower than the nested block, and re-increment, so a
fresh `if("c")` followed by `elif("d")` would emit `elif d:` with no tabs and
leave the counter at 1. Evaluating the code refutes this: because `indent(-1)`
increments (see C1), the `elif` and `else` headers are emitted two tabs deep —
one level deeper than the `if` body — and the counter ends at 3. -/
theorem c2_elif_depth_bug :
    (elifStmt (ifStmt ⟨"t", "", 0⟩ "c") "d").content = "if c:\n\t\telif d:\n" ∧
    (elifStmt (ifStmt ⟨"t", "", 0⟩ "c") "d").indents = 3 ∧
    (elseStmt (ifStmt ⟨"t", "", 0⟩ "c")).content = "if c:\n\t\telse:\n" ∧
    (elseStmt (ifStmt ⟨"t", "", 0⟩ "c")).indents = 3 := by
  decide

/-- C9: the program buffer is append-only — every builder operation only
appends bytes at the end of the buffer, leaving everything already written
byte-for-byte unchanged, and leaves the backing file's path untouched. -/
theorem c9_append_only : ∀ (p : PythonProgram) (o : Op),
    (∃ s : String, (step p o).content = p.content ++ s) ∧ (step p o).path = p.path := by
  intro p o
  cases o <;>
    simp only [step, write_line, define_variable, writeImport, writeImportAs, ifStmt,
      elifStmt, elseStmt, forStmt, whileStmt, indent_content, indent_path] <;>
    exact ⟨⟨_, rfl⟩, trivial⟩

/-- C10: rendering the indentation prefix for a counter value `n ≤ 0` yields
the empty string (the Rust range `0..n` is empty), so a line written at a zero
or negative level is byte-for-byte the line written at level 0; for `0 < n` the
prefix is exactly `n` tab characters. -/
theorem c10_indent_render : ∀ n : Int,
    (n ≤ 0 → indentsStr n = "" ∧
      ∀ (pa c l : String),
        (write_line ⟨pa, c, n⟩ l).content = (write_line ⟨pa, c, 0⟩ l).content) ∧
    (0 < n → (indentsStr n).length = n.toNat ∧ ∀ ch ∈ (indentsStr n).data, ch = '\t') := by
  intro n
  constructor
  · intro hn
    have h0 : n.toNat = 0 := Int.toNat_of_nonpos hn
    have he : indentsStr n = "" := by unfold indentsStr; rw [h0]; rfl
    refine ⟨he, ?_⟩
    intro pa c l
    show c ++ (indentsStr n ++ l ++ "\n") = c ++ (indentsStr 0 ++ l ++ "\n")
    rw [he]; rfl
  · intro _
    constructor
    · show (List.replicate n.toNat '\t').length = n.toNat
      exact List.length_replicate _ _
    · intro ch hch
      exact List.eq_of_mem_replicate hch

/-- C10 witness: the theorem applied at the concrete levels -2 and 3. -/
theorem c10_indent_render_witness :
    ((-2 : Int) ≤ 0 ∧ indentsStr (-2) = "") ∧
    ((0 : Int) < 3 ∧ (indentsStr 3).length = (3 : Int).toNat) :=
  ⟨⟨by decide, ((c10_indent_render (-2)).1 (by decide)).1⟩,
   ⟨by decide, ((c10_indent_render 3).2 (by decide)).1⟩⟩

theorem strAppend_assoc (a b c : String) : a ++ b ++ c = a ++ (b ++ c) := by
  cases a with
  | mk as =>
    cases b with
    | mk bs =>
      cases c with
      | mk cs =>
        show String.mk (as ++ bs ++ cs) = String.mk (as ++ (bs ++ cs))
        rw [List.append_assoc]

/-- Model of the integer `AsPythonLitteral` impls (src/src/lib.rs:20): the
format string is plain `"{}"`, i.e. decimal digits with a leading `-` iff
negative, which is `toString` on `Int`. -/
def renderInt (n : Int) : String := toString n

/-- Model of `AsPythonLitteral for Vec<T>` (src/src/lib.rs:63): write `[`, then
each element's literal followed by a comma, then `]`; the element impl is the
`render` argument. -/
def renderListLit {α : Type} (render : α → String) (xs : List α) : String :=
  "[" ++ String.join (xs.map (fun x => render x ++ ",")) ++ "]"

/-- C5: a rendered sequence is `[`, then exactly `len s` comma-terminated
element renderings, then `]`; and `define_variable("x", &vec![1,2,3])` appends
exactly the line `x = [1,2,3,]` preceded by the current indentation prefix. -/
theorem c5_list_literal :
    (∀ (α : Type) (render : α → String) (xs : List α),
      ∃ pieces : List String,
        pieces.length = xs.length ∧
        pieces = xs.map (fun x => render x ++ ",") ∧
        renderListLit render xs = "[" ++ String.join pieces ++ "]") ∧
    (∀ p : PythonProgram,
      (define_variable (renderListLit renderInt) p "x" [1, 2, 3]).content =
        p.content ++ (indentsStr p.indents ++ ("x = [1,2,3,]" ++ "\n"))) := by
  constructor
  · intro α render xs
    exact ⟨xs.map (fun x => render x ++ ","), by simp, rfl, rfl⟩
  · intro p
    show p.content ++
        (indentsStr p.indents ++ "x" ++ " = " ++ renderListLit renderInt [1, 2, 3] ++ "\n") =
      p.content ++ (indentsStr p.indents ++ ("x = [1,2,3,]" ++ "\n"))
    congr 1
    simp only [strAppend_assoc]
    congr 1

/-- A typed I/O failure, as produced by the modelled OS primitives. -/
structure IOErr where
  code : Nat
  deriving DecidableEq

/-- What a call into the builder can do, seen from the caller: return a value,
return a typed I/O failure, or panic (the Rust `.unwrap()` on an `Err`). -/
inductive Outcome (α : Type) where
  | ok (val : α)
  | err (e : IOErr)
  | panicked
  deriving DecidableEq

/-- Whether an outcome is a typed I/O failure surfaced to the caller. -/
def isErr {α : Type} : Outcome α → Bool
  | .err _ => true
  | _ => false

/-- Model of `PythonProgram::new` (src/src/lib.rs:148):
`tempfile::NamedTempFile::new().unwrap()` — the outcome of the temp-file
creation primitive is the `create` argument, and the source unwraps it, so a
creation failure panics; it is never returned to the caller. -/
def new (create : Except IOErr String) : Outcome PythonProgram :=
  match create with
  | .ok path => .ok ⟨path, "", 0⟩
  | .error _ => .panicked

/-- Model of the `writeln!(...).unwrap()` in `write_line` (src/src/lib.rs:230)
with the outcome of the underlying file write made explicit: a failed write
panics, a successful one appends as `write_line` does. -/
def write_line_checked (p : PythonProgram) (line : String)
    (w : Except IOErr Unit) : Outcome PythonProgram :=
  match w with
  | .ok _ => .ok (write_line p line)
  | .error _ => .panicked

/-- Model of the `writeln!(...).unwrap()` in `define_variable`
(src/src/lib.rs:200-207) with the outcome of the underlying file write made
explicit: a failed write panics, a successful one appends as
`define_variable` does. -/
def define_variable_checked {α : Type} (render : α → String) (p : PythonProgram)
    (name : String) (v : α) (w : Except IOErr Unit) : Outcome PythonProgram :=
  match w with
  | .ok _ => .ok (define_variable render p name v)
  | .error _ => .panicked

/-- Model of the `writeln!(...).unwrap()` in `import` (src/src/lib.rs:213)
with the outcome of the underlying file write made explicit. -/
def writeImport_checked (p : PythonProgram) (dependency : String)
    (w : Except IOErr Unit) : Outcome PythonProgram :=
  match w with
  | .ok _ => .ok (writeImport p dependency)
  | .error _ => .panicked

/-- Model of the `writeln!(...).unwrap()` in `import_as` (src/src/lib.rs:219-224)
with the outcome of the underlying file write made explicit. -/
def writeImportAs_checked (p : PythonProgram) (dependency rename : String)
    (w : Except IOErr Unit) : Outcome PythonProgram :=
  match w with
  | .ok _ => .ok (writeImportAs p dependency rename)
  | .error _ => .panicked

/-- A tiny file system: a list of (path, bytes) pairs, most recent first. -/
def FS : Type := List (String × String)

/-- Writing a file into the modelled file system. -/
def fsWrite (fs : FS) (p s : String) : FS := (p, s) :: fs

/-- Reading a file back from the modelled file system. -/
def fsRead : FS → String → Option String
  | [], _ => none
  | (a, b) :: t, k => if a = k then some b else fsRead t k

/-- Model of `PythonProgram::save_as` (src/src/lib.rs:155):
`std::fs::copy(self.file.path(), path)` — the copy primitive's outcome is the
`copy` argument; on success the destination receives the builder's full
content and the byte count is returned; the error case returns the error
unchanged. `save_as` takes `&self`, so the builder is returned untouched. -/
def save_as (p : PythonProgram) (fs : FS) (dest : String)
    (copy : Except IOErr Unit) : Except IOErr Nat × PythonProgram × FS :=
  match copy with
  | .ok _ => (.ok p.content.length, p, fsWrite fs dest p.content)
  | .error e => (.error e, p, fs)

/-- A process invocation: binary name and argument list. -/
structure Command where
  program : String
  args : List String
  deriving DecidableEq

/-- A completed child process: exit status plus captured stdout and stderr,
modelling `std::process::Output`. -/
structure Output where
  status : Int
  stdout : String
  stderr : String
  deriving DecidableEq

/-- Model of `PythonProgram::run` (src/src/lib.rs:160):
`Command::new("python3").arg(self.file.path()).output()` — the OS-level
launch-and-capture primitive is the `exec` argument; `run` builds the command
from the hardcoded binary name and the file path and returns the primitive's
result unchanged. -/
def run (p : PythonProgram) (exec : Command → Except IOErr Output) :
    Except IOErr Output :=
  exec ⟨"python3", [p.path]⟩

/-- C3 counterexample: the claim says `new()` propagates an I/O error when the
durable resource cannot be created and that no operation panics on an I/O
failure. Evaluating the code at a failed creation / failed write refutes both:
the outcome of `new`, `write_line`, `define_variable`, `import` and
`import_as` is `panicked`, never a surfaced error. -/
theorem c3_new_panics_cex :
    new (Except.error ⟨7⟩) = Outcome.panicked ∧
    isErr (new (Except.error ⟨7⟩)) = false ∧
    write_line_checked ⟨"t", "", 0⟩ "x" (Except.error ⟨7⟩) = Outcome.panicked ∧
    define_variable_checked id ⟨"t", "", 0⟩ "x" "1" (Except.error ⟨7⟩) = Outcome.panicked ∧
    writeImport_checked ⟨"t", "", 0⟩ "math" (Except.error ⟨7⟩) = Outcome.panicked ∧
    writeImportAs_checked ⟨"t", "", 0⟩ "math" "m" (Except.error ⟨7⟩) = Outcome.panicked := by
  decide

/-- C3 amended: `save_as` and `run` surface I/O failures to the caller as
typed failure results, but `new()` and the line-writing operations —
`write_line`, `define_variable`, `import`, `import_as` — call `.unwrap()` and
panic on I/O failure instead of propagating it. -/
theorem c3_error_handling :
    ∀ (e : IOErr) (p : PythonProgram) (fs : FS) (dest line path name v dep rn : String),
      new (Except.error e) = Outcome.panicked ∧
      new (Except.ok path) = Outcome.ok ⟨path, "", 0⟩ ∧
      write_line_checked p line (Except.error e) = Outcome.panicked ∧
      write_line_checked p line (Except.ok ()) = Outcome.ok (write_line p line) ∧
      define_variable_checked id p name v (Except.error e) = Outcome.panicked ∧
      define_variable_checked id p name v (Except.ok ()) =
        Outcome.ok (define_variable id p name v) ∧
      writeImport_checked p dep (Except.error e) = Outcome.panicked ∧
      writeImport_checked p dep (Except.ok ()) = Outcome.ok (writeImport p dep) ∧
      writeImportAs_checked p dep rn (Except.error e) = Outcome.panicked ∧
      writeImportAs_checked p dep rn (Except.ok ()) =
        Outcome.ok (writeImportAs p dep rn) ∧
      (save_as p fs dest (Except.error e)).1 = Except.error e ∧
      run p (fun _ => Except.error e) = Except.error e := by
  intro e p fs dest line path name v dep rn
  exact ⟨rfl, rfl, rfl, rfl, rfl, rfl, rfl, rfl, rfl, rfl, rfl, rfl⟩

/-- C6: on success `save_as` returns the byte count, writes the builder's full
content verbatim to the destination (reading the destination back yields
exactly the accumulated content), and leaves the builder unchanged so further
appends behave as before; when the copy fails the typed error is returned and
nothing changes. -/
theorem c6_save_as :
    ∀ (p : PythonProgram) (fs : FS) (dest : String) (e : IOErr),
      save_as p fs dest (Except.ok ()) =
        (Except.ok p.content.length, p, fsWrite fs dest p.content) ∧
      fsRead (save_as p fs dest (Except.ok ())).2.2 dest = some p.content ∧
      save_as p fs dest (Except.error e) = (Except.error e, p, fs) ∧
      write_line (save_as p fs dest (Except.ok ())).2.1 "next" = write_line p "next" := by
  intro p fs dest e
  refine ⟨rfl, ?_, rfl, rfl⟩
  show fsRead (fsWrite fs dest p.content) dest = some p.content
  simp [fsWrite, fsRead]

/-- C7: `run()` invokes exactly the binary named `python3` with the buffer's
file path as sole argument and returns the launch primitive's result
unchanged: a child output with any (also non-zero) exit status comes back as a
success value, and an error is returned only when the primitive itself fails
(interpreter cannot be located or launched). -/
theorem c7_run :
    ∀ (p : PythonProgram) (exec : Command → Except IOErr Output),
      run p exec = exec ⟨"python3", [p.path]⟩ ∧
      (∀ out : Output, exec ⟨"python3", [p.path]⟩ = Except.ok out →
        run p exec = Except.ok out) ∧
      (∀ e : IOErr, exec ⟨"python3", [p.path]⟩ = Except.error e →
        run p exec = Except.error e) := by
  intro p exec
  exact ⟨rfl, fun _ h => h, fun _ h => h⟩

/-- C7 witness: a child exiting with status 2 is returned as part of the
successful result. -/
theorem c7_run_witness :
    run ⟨"s.py", "", 0⟩ (fun _ => Except.ok ⟨2, "out", "err"⟩) =
      Except.ok (⟨2, "out", "err"⟩ : Output) :=
  (c7_run ⟨"s.py", "", 0⟩ (fun _ => Except.ok ⟨2, "out", "err"⟩)).2.1
    ⟨2, "out", "err"⟩ rfl

/-- The decimal exponent `⌊log10 a⌋` of a positive rational, computed from the
digit counts of numerator and denominator with a one-step correction. Part of
the model of Rust's `{:.6e}` float formatting used in src/src/lib.rs:38. -/
def floorLog10 (a : ℚ) : ℤ :=
  if (10 : ℚ) ^ ((Nat.log 10 a.num.natAbs : ℤ) - (Nat.log 10 a.den : ℤ)) ≤ a then
    (Nat.log 10 a.num.natAbs : ℤ) - (Nat.log 10 a.den : ℤ)
  else (Nat.log 10 a.num.natAbs : ℤ) - (Nat.log 10 a.den : ℤ) - 1

/-- Round to the nearest integer, ties to the even neighbour — the rounding
Rust's float formatting applies when truncating the exact decimal digits to
the requested precision. -/
def roundHalfEven (x : ℚ) : ℤ :=
  if x - ⌊x⌋ < 1 / 2 then ⌊x⌋
  else if 1 / 2 < x - ⌊x⌋ then ⌊x⌋ + 1
  else if ⌊x⌋ % 2 = 0 then ⌊x⌋ else ⌊x⌋ + 1

/-- The mantissa of a positive rational rounded to 6 fractional digits: the
integer nearest `a / 10 ^ ⌊log10 a⌋ * 10 ^ 6`, in `[10^6, 10^7]`. -/
def sciMant (a : ℚ) : ℤ := roundHalfEven (a * (10 : ℚ) ^ ((6 : ℤ) - floorLog10 a))

/-- Mantissa and exponent after the carry step: when rounding pushed the
mantissa up to `10^7` the mantissa becomes `10^6` and the exponent grows by
one, exactly as `9.9999999` formats as `1.000000e1`. -/
def sciParts (a : ℚ) : ℤ × ℤ :=
  if sciMant a = 10 ^ 7 then (10 ^ 6, floorLog10 a + 1) else (sciMant a, floorLog10 a)

/-- Renders a mantissa integer in `[10^6, 10^7)` as `d.dddddd`: the leading
digit, a point, and the six fractional digits zero-padded to width 6. -/
def mantStr (n : Nat) : String :=
  toString (n / 10 ^ 6) ++ "." ++ String.mk
    [Nat.digitChar (n / 10 ^ 5 % 10), Nat.digitChar (n / 10 ^ 4 % 10),
     Nat.digitChar (n / 10 ^ 3 % 10), Nat.digitChar (n / 10 ^ 2 % 10),
     Nat.digitChar (n / 10 % 10), Nat.digitChar (n % 10)]

/-- Model of Rust's `{:.6e}` (`LowerExp` with precision 6) on the exact
rational value of a finite float: sign, mantissa rounded to 6 fractional
digits, `e`, and the unpadded decimal exponent; zero formats as
`0.000000e0`. -/
def sciFmt6 (q : ℚ) : String :=
  if q = 0 then "0.000000e0"
  else
    (if q < 0 then "-" else "") ++ mantStr (sciParts |q|).1.toNat ++ "e" ++
      toString (sciParts |q|).2

/-- A 64-bit (or 32-bit) float as the formatter observes it: NaN, an infinity,
or a finite value, the latter abstracted by its exact rational value. -/
inductive F64 where
  | nan
  | inf (neg : Bool)
  | finite (q : ℚ)

/-- Model of `AsPythonLitteral for f64` / `f32` (src/src/lib.rs:43 and 33):
`if self.is_nan() { write!(f, "float(\x27nan\x27)") } else { write!(f, "{:.6e}", self) }`;
the non-NaN branch applied to an infinity is Rust's `inf` / `-inf` token. -/
def renderF64 : F64 → String
  | .nan => "float(\x27nan\x27)"
  | .inf false => "inf"
  | .inf true => "-inf"
  | .finite q => sciFmt6 q

theorem ten_zpow_pos (k : ℤ) : (0 : ℚ) < (10 : ℚ) ^ k :=
  zpow_pos (by norm_num) k

theorem floorLog10_bounds (a : ℚ) (ha : 0 < a) :
    (10 : ℚ) ^ floorLog10 a ≤ a ∧ a < (10 : ℚ) ^ (floorLog10 a + 1) := by
  have hnum : 0 < a.num := Rat.num_pos.mpr ha
  have hPpos : 0 < a.num.natAbs := Int.natAbs_pos.mpr (ne_of_gt hnum)
  have hDpos : 0 < a.den := a.pos
  have hDQ : (0 : ℚ) < (a.den : ℚ) := by exact_mod_cast hDpos
  have hcast : ((a.num.natAbs : ℕ) : ℚ) = (a.num : ℚ) := by
    rw [Int.cast_natAbs]
    exact_mod_cast abs_of_nonneg hnum.le
  have haPD : a = (a.num.natAbs : ℚ) / (a.den : ℚ) := by
    rw [hcast, Rat.num_div_den]
  set lp : ℕ := Nat.log 10 a.num.natAbs with hlp
  set ld : ℕ := Nat.log 10 a.den with hld
  have hup : a < (10 : ℚ) ^ ((lp : ℤ) - (ld : ℤ) + 1) := by
    rw [haPD, div_lt_iff₀ hDQ]
    have h1 : (a.num.natAbs : ℚ) < (10 : ℚ) ^ (lp + 1 : ℕ) := by
      exact_mod_cast Nat.lt_pow_succ_log_self (by norm_num) a.num.natAbs
    have h2 : (10 : ℚ) ^ (ld : ℤ) ≤ (a.den : ℚ) := by
      rw [zpow_natCast]
      exact_mod_cast Nat.pow_log_le_self 10 hDpos.ne'
    calc (a.num.natAbs : ℚ) < (10 : ℚ) ^ (lp + 1 : ℕ) := h1
      _ = (10 : ℚ) ^ ((lp : ℤ) + 1) := by
          rw [← zpow_natCast]
          congr 1
          try push_cast
          try ring
      _ = (10 : ℚ) ^ ((lp : ℤ) - (ld : ℤ) + 1) * (10 : ℚ) ^ (ld : ℤ) := by
          rw [← zpow_add₀ (by norm_num : (10 : ℚ) ≠ 0)]
          congr 1
          ring
      _ ≤ (10 : ℚ) ^ ((lp : ℤ) - (ld : ℤ) + 1) * (a.den : ℚ) :=
          mul_le_mul_of_nonneg_left h2 (ten_zpow_pos _).le
  have hdown : (10 : ℚ) ^ ((lp : ℤ) - (ld : ℤ) - 1) < a := by
    rw [haPD, lt_div_iff₀ hDQ]
    have h1 : (10 : ℚ) ^ (lp : ℤ) ≤ (a.num.natAbs : ℚ) := by
      rw [zpow_natCast]
      exact_mod_cast Nat.pow_log_le_self 10 hPpos.ne'
    have h2 : (a.den : ℚ) < (10 : ℚ) ^ (ld + 1 : ℕ) := by
      exact_mod_cast Nat.lt_pow_succ_log_self (by norm_num) a.den
    calc (10 : ℚ) ^ ((lp : ℤ) - (ld : ℤ) - 1) * (a.den : ℚ)
        < (10 : ℚ) ^ ((lp : ℤ) - (ld : ℤ) - 1) * (10 : ℚ) ^ (ld + 1 : ℕ) :=
          mul_lt_mul_of_pos_left h2 (ten_zpow_pos _)
      _ = (10 : ℚ) ^ (lp : ℤ) := by
          rw [← zpow_natCast (10 : ℚ) (ld + 1), ← zpow_add₀ (by norm_num : (10 : ℚ) ≠ 0)]
          congr 1
          try push_cast
          try ring
      _ ≤ (a.num.natAbs : ℚ) := h1
  unfold floorLog10
  rw [← hlp, ← hld]
  split_ifs with h
  · exact ⟨h, hup⟩
  · push_neg at h
    constructor
    · exact hdown.le
    · rw [sub_add_cancel]
      exact h

theorem roundHalfEven_bounds (x : ℚ) :
    ⌊x⌋ ≤ roundHalfEven x ∧ roundHalfEven x ≤ ⌊x⌋ + 1 := by
  unfold roundHalfEven
  split_ifs <;> omega

theorem sciMant_bounds (a : ℚ) (ha : 0 < a) :
    1000000 ≤ sciMant a ∧ sciMant a ≤ 10000000 := by
  obtain ⟨h1, h2⟩ := floorLog10_bounds a ha
  set e := floorLog10 a with he
  set m : ℚ := a * (10 : ℚ) ^ ((6 : ℤ) - e) with hm
  have hpow : (0 : ℚ) < (10 : ℚ) ^ ((6 : ℤ) - e) := ten_zpow_pos _
  have hlo : ((1000000 : ℤ) : ℚ) ≤ m := by
    have hstep : (10 : ℚ) ^ (6 : ℤ) ≤ m := by
      calc (10 : ℚ) ^ (6 : ℤ) = (10 : ℚ) ^ e * (10 : ℚ) ^ ((6 : ℤ) - e) := by
            rw [← zpow_add₀ (by norm_num : (10 : ℚ) ≠ 0)]
            congr 1
            ring
        _ ≤ a * (10 : ℚ) ^ ((6 : ℤ) - e) := mul_le_mul_of_nonneg_right h1 hpow.le
    calc ((1000000 : ℤ) : ℚ) = (10 : ℚ) ^ (6 : ℤ) := by norm_num
      _ ≤ m := hstep
  have hhi : m < ((10000000 : ℤ) : ℚ) := by
    have hstep : m < (10 : ℚ) ^ (7 : ℤ) := by
      calc m < (10 : ℚ) ^ (e + 1) * (10 : ℚ) ^ ((6 : ℤ) - e) :=
            mul_lt_mul_of_pos_right h2 hpow
        _ = (10 : ℚ) ^ (7 : ℤ) := by
            rw [← zpow_add₀ (by norm_num : (10 : ℚ) ≠ 0)]
            congr 1
            ring
    calc m < (10 : ℚ) ^ (7 : ℤ) := hstep
      _ = ((10000000 : ℤ) : ℚ) := by norm_num
  have hfl : (1000000 : ℤ) ≤ ⌊m⌋ := Int.le_floor.mpr hlo
  have hfu : ⌊m⌋ < (10000000 : ℤ) := Int.floor_lt.mpr hhi
  obtain ⟨hb1, hb2⟩ := roundHalfEven_bounds m
  unfold sciMant
  rw [← he, ← hm]
  omega

theorem sciParts_bounds (a : ℚ) (ha : 0 < a) :
    1000000 ≤ (sciParts a).1 ∧ (sciParts a).1 < 10000000 := by
  obtain ⟨h1, h2⟩ := sciMant_bounds a ha
  unfold sciParts
  split_ifs with h
  · constructor <;> norm_num
  · have hne : sciMant a ≠ 10000000 := by
      intro hc
      exact h (by rw [hc]; norm_num)
    exact ⟨h1, by omega⟩

theorem digitChar_isDigit : ∀ k : ℕ, k < 10 → (Nat.digitChar k).isDigit = true := by
  decide

/-- C4: `render(NaN)` is exactly the constructor token `float('nan')`, and for
every finite float — abstracted by its exact rational value `q` — the rendered
text is scientific notation with exactly 6 fractional mantissa digits: an
optional minus sign, one leading digit (non-zero unless `q = 0`), a point,
exactly six decimal digit characters, `e`, and the decimal exponent. -/
theorem c4_float_rendering :
    renderF64 F64.nan = "float(\x27nan\x27)" ∧
    ∀ q : ℚ, ∃ (d : ℕ) (frac : List Char) (ex : ℤ),
      renderF64 (F64.finite q) =
        (if q < 0 then "-" else "") ++ toString d ++ "." ++ String.mk frac ++ "e" ++
          toString ex ∧
      frac.length = 6 ∧ frac.all Char.isDigit = true ∧ d ≤ 9 ∧ (q = 0 ∨ 1 ≤ d) := by
  refine ⟨rfl, ?_⟩
  intro q
  by_cases hq : q = 0
  · subst hq
    refine ⟨0, List.replicate 6 '0', 0, ?_, rfl, rfl, by norm_num, Or.inl rfl⟩
    show sciFmt6 0 = _
    unfold sciFmt6
    rw [if_pos rfl, if_neg (lt_irrefl (0 : ℚ))]
    rfl
  · have ha : 0 < |q| := abs_pos.mpr hq
    obtain ⟨hlo, hhi⟩ := sciParts_bounds |q| ha
    set n : ℤ := (sciParts |q|).1 with hn
    set t : ℕ := n.toNat with ht
    have htlo : 1000000 ≤ t := by omega
    have hthi : t < 10000000 := by omega
    refine ⟨t / 10 ^ 6,
      [Nat.digitChar (t / 10 ^ 5 % 10), Nat.digitChar (t / 10 ^ 4 % 10),
       Nat.digitChar (t / 10 ^ 3 % 10), Nat.digitChar (t / 10 ^ 2 % 10),
       Nat.digitChar (t / 10 % 10), Nat.digitChar (t % 10)],
      (sciParts |q|).2, ?_, rfl, ?_, ?_, Or.inr ?_⟩
    · show sciFmt6 q = _
      unfold sciFmt6
      rw [if_neg hq]
      unfold mantStr
      rw [← hn, ← ht]
      simp only [strAppend_assoc]
    · simp only [List.all_cons, List.all_nil, Bool.and_eq_true, and_true]
      refine ⟨?_, ?_, ?_, ?_, ?_, ?_⟩ <;>
        exact digitChar_isDigit _ (Nat.mod_lt _ (by norm_num))
    · have hd : t / 10 ^ 6 < 10 := by
        rw [Nat.div_lt_iff_lt_mul (by norm_num)]
        omega
      omega
    · rw [Nat.one_le_div_iff (by norm_num)]
      omega

end Pycall
